import Mathlib

/-!
# Row search query engine: a shallow embedding

This file embeds the row search query engine of the repository. The
repository sources contain the engine's full cross-adapter test suite
(`/api/:sourceId/search`), which fixes the observable behaviour of the
engine on six adapter families (lucene = indexed, sqs = structured
internal, and the relational dialects postgres, mysql, sqlServer,
mariadb); the engine implementation itself is not among the source
files, so the definitions below are modelled from the specification
(`spec.md`, sections 3, 4 and 7), with every point that the test suite
pins down translated to agree with the tests.

The model: a table is a list of rows; a row is an association list from
column names to stored values; a search request carries a canonical
filter (`SearchFilters`), an optional sort and an optional limit; the
engine plans the request (rejecting half-open ranges on the indexed
adapter, short-circuiting the empty filter set according to
`onEmptyFilter`), filters the rows by the conjunction of all
predicates, sorts, limits and finally normalizes reference fields to
the `\x7b_id\x7d` shape.
-/

/-- A user record as stored inside a reference field. Only `uid` (the
`_id` of the user) matters for comparisons; `firstName` stands for the
extra payload a stored user object carries and that normalization must
strip. -/
structure UserObj where
  uid : String
  firstName : String := ""
deriving DecidableEq

/-- Values as the storage layer holds them.  `userObj` is a single
reference stored as a full user object; `userArr` is a reference stored
as an array of user objects, which covers both the multi-reference case
and the deprecated single-reference-wrapped-in-array representation. -/
inductive StoredValue where
  | null
  | bool (b : Bool)
  | str (s : String)
  | num (n : Int)
  | bigint (n : Int)
  | arr (xs : List String)
  | userObj (u : UserObj)
  | userArr (us : List UserObj)
deriving DecidableEq

/-- A row: an association list from column names to stored values. -/
abbrev Row := List (String × StoredValue)

/-- The raw value of a column in a row, if the column is present. -/
def getField (r : Row) (col : String) : Option StoredValue :=
  (r.find? (fun p => p.1 == col)).map (fun p => p.2)

/-- The value of a column, treating an explicit `null` as absent. -/
def presentField (r : Row) (col : String) : Option StoredValue :=
  match getField r col with
  | some .null => none
  | v => v

/-- A scalar value in a (binding-resolved) query. -/
inductive QVal where
  | str (s : String)
  | num (n : Int)
  | bool (b : Bool)
deriving DecidableEq

/-- Parse a list of decimal digit characters into a natural number,
failing on any non-digit. -/
def parseDigitsAux : Nat → List Char → Option Nat
  | acc, [] => some acc
  | acc, c :: cs =>
    if c.isDigit then parseDigitsAux (acc * 10 + (c.toNat - 48)) cs
    else none

/-- Modelled from the spec: bigint values are compared as exact
integers via string-based parsing, never through floating point
(spec section 4.3 item a). Parses a decimal string, with an optional
leading minus sign, to an exact integer. -/
def parseBigint (s : String) : Option Int :=
  match s.data with
  | [] => none
  | '-' :: cs =>
    match cs with
    | [] => none
    | _ => (parseDigitsAux 0 cs).map (fun n => -(n : Int))
  | cs => (parseDigitsAux 0 cs).map (fun n => (n : Int))

/-- Equality between a stored value and a query scalar, per field type
(Type Coercion Layer, spec section 4.3): booleans, strings and numbers
compare directly, bigints compare as exact integers parsed from the
query string, and reference values match by `_id` only.  A deprecated
single reference stored as a one-element array matches the id of that
element. -/
def svEq : StoredValue → QVal → Bool
  | .bool b, .bool c => b == c
  | .str s, .str t => s == t
  | .num n, .num m => n == m
  | .bigint n, .num m => n == m
  | .bigint n, .str t => parseBigint t == some n
  | .userObj u, .str t => u.uid == t
  | .userArr us, .str t =>
    match us with
    | [u] => u.uid == t
    | _ => false
  | _, _ => false

/-- Range ordering, lower side: is the query bound at most the stored
value?  Numeric for number/bigint (bigint bounds parsed exactly from
strings), lexicographic for strings and ISO-8601 dates. -/
def qvalLeSv (q : QVal) (sv : StoredValue) : Bool :=
  match q, sv with
  | .num m, .num n => m ≤ n
  | .num m, .bigint n => m ≤ n
  | .str t, .bigint n =>
    match parseBigint t with
    | some m => m ≤ n
    | none => false
  | .str t, .str s => t ≤ s
  | _, _ => false

/-- Range ordering, upper side: is the stored value at most the query
bound? -/
def svLeQval (sv : StoredValue) (q : QVal) : Bool :=
  match sv, q with
  | .num n, .num m => n ≤ m
  | .bigint n, .num m => n ≤ m
  | .bigint n, .str t =>
    match parseBigint t with
    | some m => n ≤ m
    | none => false
  | .str s, .str t => s ≤ t
  | _, _ => false

/-- The elements of a multi-valued stored value, as strings: array
fields yield their entries, reference arrays yield the `_id`s. -/
def svElems : StoredValue → Option (List String)
  | .arr xs => some xs
  | .userArr us => some (us.map UserObj.uid)
  | _ => none

/-- A `range` bound: at least one of `low`/`high` is expected; a bound
with exactly one side present is a half-open range. -/
structure RangeBound where
  low : Option QVal := none
  high : Option QVal := none
deriving DecidableEq

/-- A bound is half-open when exactly one side is present. -/
def isHalfOpen (rb : RangeBound) : Bool :=
  rb.low.isSome != rb.high.isSome

/-- The `onEmptyFilter` policy (spec section 3). -/
inductive EmptyFilterOption where
  | returnAll
  | returnNone
deriving DecidableEq

/-- Canonical, binding-resolved search filters (spec section 3):
operator name, then column name, then value(s). -/
structure SearchFilters where
  equal : List (String × QVal) := []
  notEqual : List (String × QVal) := []
  oneOf : List (String × List QVal) := []
  range : List (String × RangeBound) := []
  contains : List (String × List String) := []
  notContains : List (String × List String) := []
  containsAny : List (String × List String) := []
  fuzzy : List (String × String) := []
  empty : List String := []
  notEmpty : List String := []
  onEmptyFilter : Option EmptyFilterOption := none
deriving DecidableEq

/-- Does a row satisfy an `equal` predicate?  The field must be present
(a `null` or missing field never equals anything). -/
def matchesEqual (r : Row) (col : String) (v : QVal) : Bool :=
  match presentField r col with
  | some sv => svEq sv v
  | none => false

/-- Does a row satisfy a `notEqual` predicate?  An absent field counts
as not equal, so rows missing the field are matched; this agrees with
the engine's test suite for the user reference notEqual cases. -/
def matchesNotEqual (r : Row) (col : String) (v : QVal) : Bool :=
  match presentField r col with
  | some sv => !(svEq sv v)
  | none => true

/-- Does a row satisfy a `oneOf` predicate: the field is present and
equals one of the listed scalars? -/
def matchesOneOf (r : Row) (col : String) (vs : List QVal) : Bool :=
  match presentField r col with
  | some sv => vs.any (fun v => svEq sv v)
  | none => false

/-- Does a row satisfy a `range` predicate?  Both bounds are inclusive;
an absent bound is open. -/
def matchesRange (r : Row) (col : String) (rb : RangeBound) : Bool :=
  match presentField r col with
  | some sv =>
    (match rb.low with
     | none => true
     | some lo => qvalLeSv lo sv) &&
    (match rb.high with
     | none => true
     | some hi => svLeQval sv hi)
  | none => false

/-- Does a row satisfy a `contains` predicate: every listed value is an
element of the multi-valued field?  An empty value list matches every
row (documented identity behaviour, spec section 3). -/
def matchesContains (r : Row) (col : String) (vs : List String) : Bool :=
  if vs.isEmpty then true
  else
    match (getField r col).bind svElems with
    | some es => vs.all (fun v => es.contains v)
    | none => false

/-- Does a row satisfy a `notContains` predicate?  An empty value list
matches every row; otherwise the row matches unless its field is a
multi-valued field containing every listed value, so rows missing the
field are matched. -/
def matchesNotContains (r : Row) (col : String) (vs : List String) : Bool :=
  if vs.isEmpty then true
  else
    match (getField r col).bind svElems with
    | some es => !(vs.all (fun v => es.contains v))
    | none => true

/-- Does a row satisfy a `containsAny` predicate: at least one listed
value is an element of the multi-valued field?  An empty value list
matches every row. -/
def matchesContainsAny (r : Row) (col : String) (vs : List String) : Bool :=
  if vs.isEmpty then true
  else
    match (getField r col).bind svElems with
    | some es => vs.any (fun v => es.contains v)
    | none => false

/-- Case-insensitive substring test used by `fuzzy`. -/
def isSubstringOf (needle hay : String) : Bool :=
  needle.isEmpty || (hay.splitOn needle).length > 1

/-- Does a row satisfy a `fuzzy` predicate: case-insensitive substring
match on a string field? -/
def matchesFuzzy (r : Row) (col : String) (t : String) : Bool :=
  match presentField r col with
  | some (.str s) => isSubstringOf t.toLower s.toLower
  | _ => false

/-- Is a stored value empty: explicit null, empty string, or an empty
collection? -/
def isEmptyStored : StoredValue → Bool
  | .null => true
  | .str s => s.isEmpty
  | .arr xs => xs.isEmpty
  | .userArr us => us.isEmpty
  | _ => false

/-- Does a row satisfy an `empty` predicate on a column: the field is
missing, null, or an empty string/collection? -/
def matchesEmptyOp (r : Row) (col : String) : Bool :=
  match getField r col with
  | some sv => isEmptyStored sv
  | none => true

/-- Does a row satisfy a `notEmpty` predicate on a column? -/
def matchesNotEmptyOp (r : Row) (col : String) : Bool :=
  !(matchesEmptyOp r col)

/-- A row matches a filter set when it satisfies every predicate of
every operator (the canonical filter is a conjunction, spec sections 3
and 4.4). -/
def rowMatches (q : SearchFilters) (r : Row) : Bool :=
  q.equal.all (fun p => matchesEqual r p.1 p.2) &&
  q.notEqual.all (fun p => matchesNotEqual r p.1 p.2) &&
  q.oneOf.all (fun p => matchesOneOf r p.1 p.2) &&
  q.range.all (fun p => matchesRange r p.1 p.2) &&
  q.contains.all (fun p => matchesContains r p.1 p.2) &&
  q.notContains.all (fun p => matchesNotContains r p.1 p.2) &&
  q.containsAny.all (fun p => matchesContainsAny r p.1 p.2) &&
  q.fuzzy.all (fun p => matchesFuzzy r p.1 p.2) &&
  q.empty.all (fun c => matchesEmptyOp r c) &&
  q.notEmpty.all (fun c => matchesNotEmptyOp r c)

/-- Modelled from the spec: a `SearchFilters` with no operator entries
is "empty" and triggers the `onEmptyFilter` policy; the presence of an
`empty`/`notEmpty` entry always counts as a real predicate (spec
sections 3 and 4.1). -/
def SearchFilters.isEmptyFilter (q : SearchFilters) : Bool :=
  q.equal.isEmpty && q.notEqual.isEmpty && q.oneOf.isEmpty &&
  q.range.isEmpty && q.contains.isEmpty && q.notContains.isEmpty &&
  q.containsAny.isEmpty && q.fuzzy.isEmpty && q.empty.isEmpty &&
  q.notEmpty.isEmpty

/-- The closed set of adapter families (spec section 4.4). -/
inductive AdapterFamily where
  | indexed
  | structuredInternal
  | postgres
  | mysql
  | sqlServer
  | mariadb
deriving DecidableEq

/-- Modelled from the spec: the indexed adapter does not support
half-open ranges; every other family does (spec section 4.4). -/
def supportsHalfOpenRange : AdapterFamily → Bool
  | .indexed => false
  | _ => true

/-- Engine errors relevant to the modelled pipeline (spec section 7). -/
inductive EngineError where
  | unsupportedOperation (column : String)
  | bindingResolutionError (path : String)
deriving DecidableEq

/-- The outcome of planning a request (spec sections 4.1 and 7): a
half-open range on the indexed adapter fails with
`unsupportedOperation` at normalization time; an empty filter set with
`returnNone` short-circuits to a zero-row result without touching any
backend; everything else is dispatched to the adapter. -/
inductive Plan where
  | fail (e : EngineError)
  | shortCircuitNone
  | dispatch
deriving DecidableEq

/-- The first half-open range column that the chosen adapter family
cannot serve, if any. -/
def unsupportedHalfOpen (fam : AdapterFamily) (q : SearchFilters) :
    Option String :=
  if supportsHalfOpenRange fam then none
  else (q.range.find? (fun p => isHalfOpen p.2)).map (fun p => p.1)

/-- Modelled from the spec: plan a search request.  Capability checks
happen first (an `UnsupportedOperation` is reported at normalization
time, spec section 7), then the empty-filter policy is applied (spec
section 4.1); `returnAll` and the unspecified default dispatch an
unconstrained query, `returnNone` short-circuits to zero rows. -/
def planSearch (fam : AdapterFamily) (q : SearchFilters) : Plan :=
  match unsupportedHalfOpen fam q with
  | some col => .fail (.unsupportedOperation col)
  | none =>
    if q.isEmptyFilter then
      match q.onEmptyFilter with
      | some .returnNone => .shortCircuitNone
      | _ => .dispatch
    else .dispatch

/-- Sort direction. -/
inductive SortOrder where
  | ascending
  | descending
deriving DecidableEq

/-- Sort type: lexicographic or numeric comparison of the sort column. -/
inductive SortType where
  | string
  | number
deriving DecidableEq

/-- A requested sort: column, comparison type, direction. -/
structure SortSpec where
  column : String
  sortType : SortType
  order : SortOrder
deriving DecidableEq

/-- The numeric sort key of a column value: numbers, bigints and
booleans map to integers, everything else (and an absent value) sorts
first. -/
def numKeyOf : Option StoredValue → WithBot Int
  | some (.num n) => (n : Int)
  | some (.bigint n) => (n : Int)
  | some (.bool b) => ((if b then 1 else 0 : Int) : Int)
  | _ => ⊥

/-- The lexicographic sort key of a column value: strings (and ISO
dates stored as strings) compare as strings, everything else (and an
absent value) sorts first. -/
def strKeyOf : Option StoredValue → WithBot String
  | some (.str s) => s
  | _ => ⊥

/-- The ascending order on row positions used for sorting: compare the
sort keys, and break ties by the original position, giving the stable,
deterministic secondary sort key the spec requires (section 4.4). -/
def idxLe {K : Type} [LinearOrder K] (k : Nat → K) (i j : Nat) : Prop :=
  k i < k j ∨ (k i = k j ∧ i ≤ j)

/-- The descending order on row positions: the exact flip of the
ascending one. -/
def idxGe {K : Type} [LinearOrder K] (k : Nat → K) (i j : Nat) : Prop :=
  idxLe k j i

instance {K : Type} [LinearOrder K] (k : Nat → K) : DecidableRel (idxLe k) :=
  fun i j => inferInstanceAs (Decidable (k i < k j ∨ (k i = k j ∧ i ≤ j)))

instance {K : Type} [LinearOrder K] (k : Nat → K) : DecidableRel (idxGe k) :=
  fun i j => inferInstanceAs (Decidable (idxLe k j i))

theorem idxLe_total {K : Type} [LinearOrder K] (k : Nat → K) (i j : Nat) :
    idxLe k i j ∨ idxLe k j i := by
  rcases lt_trichotomy (k i) (k j) with h | h | h
  · exact Or.inl (Or.inl h)
  · rcases Nat.le_total i j with hij | hij
    · exact Or.inl (Or.inr ⟨h, hij⟩)
    · exact Or.inr (Or.inr ⟨h.symm, hij⟩)
  · exact Or.inr (Or.inl h)

theorem idxLe_trans {K : Type} [LinearOrder K] (k : Nat → K)
    {i j l : Nat} (h1 : idxLe k i j) (h2 : idxLe k j l) : idxLe k i l := by
  rcases h1 with h1 | ⟨he1, hi1⟩
  · rcases h2 with h2 | ⟨he2, _⟩
    · exact Or.inl (h1.trans h2)
    · exact Or.inl (he2 ▸ h1)
  · rcases h2 with h2 | ⟨he2, hi2⟩
    · exact Or.inl (he1 ▸ h2)
    · exact Or.inr ⟨he1.trans he2, hi1.trans hi2⟩

theorem idxLe_antisymm {K : Type} [LinearOrder K] (k : Nat → K)
    {i j : Nat} (h1 : idxLe k i j) (h2 : idxLe k j i) : i = j := by
  rcases h1 with h1 | ⟨he1, hi1⟩
  · rcases h2 with h2 | ⟨he2, _⟩
    · exact absurd h2 (lt_asymm h1)
    · exact absurd (he2 ▸ h1) (lt_irrefl (k j))
  · rcases h2 with h2 | ⟨_, hi2⟩
    · exact absurd (he1 ▸ h2) (lt_irrefl (k j))
    · exact Nat.le_antisymm hi1 hi2

/-- The sorted sequence of row positions for a given key and
direction: insertion sort of `0, …, n-1` under the ascending order or
its flip. -/
def sortedIndices {K : Type} [LinearOrder K] (k : Nat → K)
    (ord : SortOrder) (n : Nat) : List Nat :=
  match ord with
  | .ascending => List.insertionSort (idxLe k) (List.range n)
  | .descending => List.insertionSort (idxGe k) (List.range n)

/-- Sort the rows of a table by a key function: positions are ordered
by key with the original position as tie-break, then mapped back to
rows. -/
def sortByKey {K : Type} [LinearOrder K] (key : Row → K)
    (ord : SortOrder) (rs : List Row) : List Row :=
  (sortedIndices (fun i => key (rs.getD i [])) ord rs.length).map
    (fun i => rs.getD i [])

/-- Apply a requested sort to a list of rows (Result Assembler /
adapter sorting contract, spec section 4.4). -/
def applySort (s : SortSpec) (rs : List Row) : List Row :=
  match s.sortType with
  | .number => sortByKey (fun r => numKeyOf (getField r s.column)) s.order rs
  | .string => sortByKey (fun r => strKeyOf (getField r s.column)) s.order rs

/-- A search request: canonical filters plus optional sort and limit
(spec section 3, `RowSearchParams`). -/
structure RowSearchParams where
  query : SearchFilters
  sort : Option SortSpec := none
  limit : Option Nat := none

/-- Execute a dispatched request against the table: filter by the
conjunction of predicates, sort, and apply the limit.  The spec
requires all adapter families to implement the operator set
functionally equivalently (section 4.4), so execution does not depend
on the family; family-specific capability gaps were handled during
planning. -/
def runQuery (tbl : List Row) (p : RowSearchParams) : List Row :=
  let matched := tbl.filter (fun r => rowMatches p.query r)
  let sorted :=
    match p.sort with
    | none => matched
    | some s => applySort s matched
  match p.limit with
  | none => sorted
  | some l => sorted.take l

/-- Values as the Result Assembler returns them: reference fields are
normalized to the `\x7b_id\x7d` shape, dropping every other field of
the stored user objects. -/
inductive OutVal where
  | null
  | bool (b : Bool)
  | str (s : String)
  | num (n : Int)
  | bigint (n : Int)
  | arr (xs : List String)
  | ref (uid : String)
  | refList (uids : List String)
deriving DecidableEq

/-- A returned row. -/
abbrev OutRow := List (String × OutVal)

/-- Modelled from the spec: the Result Assembler's normalization of a
stored value (spec sections 3 and 4.5): a single reference becomes one
`\x7b_id\x7d` object, a reference array (multi reference, or the
deprecated single-wrapped-in-array representation) becomes the ordered
sequence of `\x7b_id\x7d` objects. -/
def normalizeValue : StoredValue → OutVal
  | .null => .null
  | .bool b => .bool b
  | .str s => .str s
  | .num n => .num n
  | .bigint n => .bigint n
  | .arr xs => .arr xs
  | .userObj u => .ref u.uid
  | .userArr us => .refList (us.map UserObj.uid)

/-- Normalize every field of a row. -/
def normalizeRow (r : Row) : OutRow :=
  r.map (fun p => (p.1, normalizeValue p.2))

/-- Modelled from the spec: the full engine pipeline after binding
resolution (spec section 2 control flow): plan, short-circuit or
dispatch, execute, assemble. -/
def search (fam : AdapterFamily) (tbl : List Row) (p : RowSearchParams) :
    Except EngineError (List OutRow) :=
  match planSearch fam p.query with
  | .fail e => .error e
  | .shortCircuitNone => .ok []
  | .dispatch => .ok ((runQuery tbl p).map normalizeRow)

/-- Modelled from the spec: the Binding Context (spec section 3): the
session-scoped values reachable from template expressions, here the
resolvable paths of the current session user (for example `_id`,
`firstName`) with their values.  A path that is not listed resolves to
nothing, which is distinct from a path listed with the empty string as
its value. -/
structure BindingContext where
  userPaths : List (String × String)

/-- Resolve a `[user].path` reference against the context: `none` means
the path resolves to nothing. -/
def resolveUserPath (ctx : BindingContext) (p : String) : Option String :=
  (ctx.userPaths.find? (fun q => q.1 == p)).map (fun q => q.2)

/-- Modelled from the spec: a template expression inside a filter value
(spec section 4.2): a `\x7b\x7b [user].path \x7d\x7d` reference, or a
`\x7b\x7b default [user].path fallback \x7d\x7d` expression whose
`default` helper substitutes its literal fallback exactly when the
referenced path resolves to nothing. -/
inductive BindingExpr where
  | userPath (p : String)
  | defaultHelper (p : String) (fallback : String)
deriving DecidableEq

/-- Modelled from the spec: resolve one template expression (spec
sections 4.2 and 7): an unresolvable path with no `default` fails with
a `BindingResolutionError`; the `default` helper substitutes its
fallback only when the path resolves to nothing, never when it resolves
to a value - including an explicit empty string. -/
def resolveBinding (ctx : BindingContext) :
    BindingExpr → Except EngineError String
  | .userPath p =>
    match resolveUserPath ctx p with
    | some v => .ok v
    | none => .error (.bindingResolutionError p)
  | .defaultHelper p fb => .ok ((resolveUserPath ctx p).getD fb)

/-- A filter scalar before binding resolution: either already a
literal, or a template expression. -/
inductive UQVal where
  | val (v : QVal)
  | binding (b : BindingExpr)
deriving DecidableEq

/-- Resolve a filter scalar to a query scalar; bindings resolve to
string literals. -/
def resolveUQ (ctx : BindingContext) : UQVal → Except EngineError QVal
  | .val v => .ok v
  | .binding b => (resolveBinding ctx b).map .str

/-- Print a query scalar, for operators whose values are strings. -/
def qvalToStr : QVal → String
  | .str s => s
  | .num n => toString n
  | .bool b => toString b

/-- Resolve a filter scalar to a plain string (for the contains family
and fuzzy values). -/
def resolveUQStr (ctx : BindingContext) (u : UQVal) :
    Except EngineError String :=
  (resolveUQ ctx u).map qvalToStr

/-- Traverse a list with a fallible resolver, failing on the first
error: resolution never partially resolves a request (spec section 7). -/
def resolveList {α β : Type} (f : α → Except EngineError β) :
    List α → Except EngineError (List β)
  | [] => .ok []
  | a :: rest =>
    match f a, resolveList f rest with
    | .ok b, .ok bs => .ok (b :: bs)
    | .error e, _ => .error e
    | .ok _, .error e => .error e

/-- Resolve the second component of a column/value pair. -/
def resolveSnd {β γ : Type} (f : β → Except EngineError γ)
    (p : String × β) : Except EngineError (String × γ) :=
  (f p.2).map (fun v => (p.1, v))

/-- A `range` bound before binding resolution. -/
structure URangeBound where
  low : Option UQVal := none
  high : Option UQVal := none
deriving DecidableEq

/-- Resolve an optional bound. -/
def resolveOpt (ctx : BindingContext) :
    Option UQVal → Except EngineError (Option QVal)
  | none => .ok none
  | some u => (resolveUQ ctx u).map some

/-- Resolve a range bound: both `low` and `high` are resolved before
any adapter sees the request (spec section 3 invariants). -/
def resolveRangeBound (ctx : BindingContext) (rb : URangeBound) :
    Except EngineError RangeBound :=
  match resolveOpt ctx rb.low, resolveOpt ctx rb.high with
  | .ok lo, .ok hi => .ok { low := lo, high := hi }
  | .error e, _ => .error e
  | .ok _, .error e => .error e

/-- Search filters before binding resolution: every scalar value
position may hold a template expression (spec section 4.2). -/
structure UnresolvedFilters where
  equal : List (String × UQVal) := []
  notEqual : List (String × UQVal) := []
  oneOf : List (String × List UQVal) := []
  range : List (String × URangeBound) := []
  contains : List (String × List UQVal) := []
  notContains : List (String × List UQVal) := []
  containsAny : List (String × List UQVal) := []
  fuzzy : List (String × UQVal) := []
  empty : List String := []
  notEmpty : List String := []
  onEmptyFilter : Option EmptyFilterOption := none
deriving DecidableEq

/-- Modelled from the spec: the Binding Resolver pass over a whole
filter set (spec section 4.2): every scalar and array value reachable
inside the filters, including both range bounds and every element of
`oneOf`/`contains`/`containsAny`, is resolved before normalization's
empty-check and before any adapter call; any failure fails the whole
request. -/
def resolveFilters (ctx : BindingContext) (u : UnresolvedFilters) :
    Except EngineError SearchFilters := do
  let eq ← resolveList (resolveSnd (resolveUQ ctx)) u.equal
  let ne ← resolveList (resolveSnd (resolveUQ ctx)) u.notEqual
  let oo ← resolveList (resolveSnd (resolveList (resolveUQ ctx))) u.oneOf
  let rg ← resolveList (resolveSnd (resolveRangeBound ctx)) u.range
  let co ← resolveList (resolveSnd (resolveList (resolveUQStr ctx))) u.contains
  let nc ← resolveList (resolveSnd (resolveList (resolveUQStr ctx))) u.notContains
  let ca ← resolveList (resolveSnd (resolveList (resolveUQStr ctx))) u.containsAny
  let fz ← resolveList (resolveSnd (resolveUQStr ctx)) u.fuzzy
  return { equal := eq, notEqual := ne, oneOf := oo, range := rg,
           contains := co, notContains := nc, containsAny := ca,
           fuzzy := fz, empty := u.empty, notEmpty := u.notEmpty,
           onEmptyFilter := u.onEmptyFilter }

/-- The engine pipeline from an unresolved request: resolve bindings,
then plan and execute; the resolved literals are what reach the
adapter. -/
def searchWithBindings (fam : AdapterFamily) (ctx : BindingContext)
    (tbl : List Row) (u : UnresolvedFilters) :
    Except EngineError (List OutRow) :=
  match resolveFilters ctx u with
  | .error e => .error e
  | .ok q => search fam tbl { query := q }

/-! ## Concrete fixtures

The tables below are the data sets of the engine's test suite: the
numbers table (rows `age:1`, `age:10`), the string table (`foo`,
`bar`), the single-user-reference table with an absent-field row, the
multi-user table, the array/options table, the bigint table and the
binding fixtures. -/

/-- The numbers table of the test suite: rows `age:1` and `age:10`. -/
def numbersTable : List Row := [[("age", .num 1)], [("age", .num 10)]]

/-- The string table of the test suite: rows `name:foo` and `name:bar`. -/
def stringTable : List Row := [[("name", .str "foo")], [("name", .str "bar")]]

/-- The half-open query `range: \x7bage: \x7blow: 5\x7d\x7d`. -/
def lowOnlyAgeQuery : SearchFilters :=
  { range := [("age", { low := some (.num 5) })] }

/-- First stored user of the user-reference fixtures. -/
def userOne : UserObj := { uid := "us_aaa", firstName := "one" }

/-- Second stored user of the user-reference fixtures. -/
def userTwo : UserObj := { uid := "us_bbb", firstName := "two" }

/-- The single-user-reference table of the test suite: one row per
user plus a row whose `user` field is null. -/
def userTable : List Row :=
  [[("user", .userObj userOne)],
   [("user", .userObj userTwo)],
   [("user", .null)]]

/-- The multi-user-reference table of the test suite: rows numbered 1
to 4 holding `[user1]`, `[user2]`, `[user1, user2]` and `[]`. -/
def multiUserTable : List Row :=
  [[("number", .num 1), ("users", .userArr [userOne])],
   [("number", .num 2), ("users", .userArr [userTwo])],
   [("number", .num 3), ("users", .userArr [userOne, userTwo])],
   [("number", .num 4), ("users", .userArr [])]]

/-- The array/options table of the test suite: rows `["one","two"]`
and `["three"]`. -/
def arrayTable : List Row :=
  [[("numbers", .arr ["one", "two"])], [("numbers", .arr ["three"])]]

/-- The bigint table of the test suite: rows `1`, `10000000` and the
signed 64-bit boundary `9223372036854775807`. -/
def bigintTable : List Row :=
  [[("num", .bigint 1)],
   [("num", .bigint 10000000)],
   [("num", .bigint 9223372036854775807)]]

/-! ## Helper lemmas -/

/-- An empty filter set has every operator list empty. -/
theorem isEmptyFilter_components {q : SearchFilters}
    (h : q.isEmptyFilter = true) :
    q.equal = [] ∧ q.notEqual = [] ∧ q.oneOf = [] ∧ q.range = [] ∧
    q.contains = [] ∧ q.notContains = [] ∧ q.containsAny = [] ∧
    q.fuzzy = [] ∧ q.empty = [] ∧ q.notEmpty = [] := by
  simpa [SearchFilters.isEmptyFilter, List.isEmpty_iff, and_assoc] using h

/-- Every row matches an empty filter set. -/
theorem rowMatches_of_isEmptyFilter {q : SearchFilters}
    (h : q.isEmptyFilter = true) (r : Row) : rowMatches q r = true := by
  obtain ⟨h1, h2, h3, h4, h5, h6, h7, h8, h9, h10⟩ := isEmptyFilter_components h
  simp [rowMatches, h1, h2, h3, h4, h5, h6, h7, h8, h9, h10]

/-- A filter set with no range entries never trips the half-open
capability check. -/
theorem unsupportedHalfOpen_of_range_nil {q : SearchFilters}
    (h : q.range = []) (fam : AdapterFamily) :
    unsupportedHalfOpen fam q = none := by
  cases hs : supportsHalfOpenRange fam <;>
    simp [unsupportedHalfOpen, hs, h]

/-- A query whose filters match every row and request no sort or limit
returns the whole table. -/
theorem runQuery_all {tbl : List Row} {q : SearchFilters}
    (hq : ∀ r ∈ tbl, rowMatches q r = true) :
    runQuery tbl { query := q } = tbl := by
  simp [runQuery, List.filter_eq_self.mpr hq]

/-! ## Claims -/

/-- C1: for the numbers table holding rows `age:1` and `age:10`, the
half-open query `range: \x7bage: \x7blow: 5\x7d\x7d` returns exactly
the single row `age:10` on every adapter family that supports
half-open ranges (the structured-internal adapter and all relational
dialects), and the indexed adapter rejects the same query with an
`UnsupportedOperation` error naming the column, rather than silently
ignoring the bound. -/
theorem halfOpenRange_lowBound_semantics :
    (∀ fam : AdapterFamily, supportsHalfOpenRange fam = true →
      search fam numbersTable { query := lowOnlyAgeQuery } =
        .ok [[("age", OutVal.num 10)]]) ∧
    search .indexed numbersTable { query := lowOnlyAgeQuery } =
      .error (.unsupportedOperation "age") := by
  constructor
  · intro fam h
    cases fam <;> first | rfl | exact absurd h (by decide)
  · rfl

/-- C1 witness: the structured-internal adapter supports half-open
ranges, and there the query returns exactly the `age:10` row. -/
theorem halfOpenRange_lowBound_semantics_witness :
    search .structuredInternal numbersTable { query := lowOnlyAgeQuery } =
      .ok [[("age", OutVal.num 10)]] :=
  halfOpenRange_lowBound_semantics.1 .structuredInternal rfl

/-- C2: for every table and every adapter family, a search whose query
contains no usable predicate returns zero rows under
`onEmptyFilter = RETURN_NONE` - planned as a short-circuit that never
dispatches to a backend - and returns every row of the table under
`RETURN_ALL`. -/
theorem emptyFilter_policy (fam : AdapterFamily) (tbl : List Row)
    (q : SearchFilters) (h : q.isEmptyFilter = true) :
    search fam tbl
        { query := { q with onEmptyFilter := some .returnNone } } = .ok [] ∧
    planSearch fam { q with onEmptyFilter := some .returnNone } =
      .shortCircuitNone ∧
    search fam tbl
        { query := { q with onEmptyFilter := some .returnAll } } =
      .ok (tbl.map normalizeRow) := by
  obtain ⟨h1, h2, h3, h4, h5, h6, h7, h8, h9, h10⟩ := isEmptyFilter_components h
  have hq1 : SearchFilters.isEmptyFilter
      { q with onEmptyFilter := some .returnNone } = true := by
    simp [SearchFilters.isEmptyFilter, h1, h2, h3, h4, h5, h6, h7, h8, h9, h10]
  have hq2 : SearchFilters.isEmptyFilter
      { q with onEmptyFilter := some .returnAll } = true := by
    simp [SearchFilters.isEmptyFilter, h1, h2, h3, h4, h5, h6, h7, h8, h9, h10]
  have hu1 := unsupportedHalfOpen_of_range_nil
    (q := { q with onEmptyFilter := some .returnNone }) h4 fam
  have hu2 := unsupportedHalfOpen_of_range_nil
    (q := { q with onEmptyFilter := some .returnAll }) h4 fam
  have hplan1 : planSearch fam { q with onEmptyFilter := some .returnNone } =
      .shortCircuitNone := by
    simp [planSearch, hu1, hq1]
  have hplan2 : planSearch fam { q with onEmptyFilter := some .returnAll } =
      .dispatch := by
    simp [planSearch, hu2, hq2]
  refine ⟨?_, hplan1, ?_⟩
  · simp [search, hplan1]
  · have hrun : runQuery tbl
        { query := { q with onEmptyFilter := some .returnAll } } = tbl :=
      runQuery_all (fun r _ => rowMatches_of_isEmptyFilter hq2 r)
    simp [search, hplan2, hrun]

/-- C2 witness: on the string table, the empty query with
`RETURN_NONE` yields zero rows and a backend-free plan, and with
`RETURN_ALL` yields both rows. -/
theorem emptyFilter_policy_witness :
    search .postgres stringTable
        { query := { ({} : SearchFilters) with
                     onEmptyFilter := some .returnNone } } = .ok [] ∧
    planSearch .postgres { ({} : SearchFilters) with
                           onEmptyFilter := some .returnNone } =
      .shortCircuitNone ∧
    search .postgres stringTable
        { query := { ({} : SearchFilters) with
                     onEmptyFilter := some .returnAll } } =
      .ok (stringTable.map normalizeRow) :=
  emptyFilter_policy .postgres stringTable {} rfl

/-- C3 counterexample: on the user table of the test suite (rows for
user `us_aaa`, user `us_bbb`, and one row whose `user` field is null),
the query `notEqual: \x7buser: "us_aaa"\x7d` returns the row whose
field is entirely absent alongside the `us_bbb` row - exactly the
expectation of the suite's `user > notEqual` test - so a row with the
filtered field absent IS matched by a negative comparison operator,
refuting the claim that such rows are never matched. -/
theorem notEqual_absent_row_counterexample :
    search .postgres userTable
        { query := { notEqual := [("user", .str "us_aaa")] } } =
      .ok [[("user", OutVal.ref "us_bbb")], [("user", OutVal.null)]] ∧
    [("user", OutVal.null)] ∈
      [[("user", OutVal.ref "us_bbb")], [("user", OutVal.null)]] :=
  ⟨rfl, by simp⟩

/-- C3 amended: for negative comparison filters (`notEqual` on a
single-reference column, `notContains` on a multi-valued column), rows
in which the filtered field is entirely absent ARE matched: negation
treats an absent field as not-equal and not-containing, so excluding
absent rows requires combining the negative filter with `notEmpty`;
concretely, the cited test scenarios return the absent-field (or
empty-collection) rows together with the genuinely unequal ones. -/
theorem negativeOperators_match_absent (r : Row) (col : String) (v : QVal)
    (vs : List String) (h : presentField r col = none) :
    matchesNotEqual r col v = true ∧
    matchesNotContains r col vs = true ∧
    search .postgres userTable
        { query := { notEqual := [("user", .str "us_aaa")] } } =
      .ok [[("user", OutVal.ref "us_bbb")], [("user", OutVal.null)]] ∧
    search .postgres multiUserTable
        { query := { notContains := [("users", ["us_aaa"])] } } =
      .ok [[("number", OutVal.num 2), ("users", OutVal.refList ["us_bbb"])],
           [("number", OutVal.num 4), ("users", OutVal.refList [])]] := by
  refine ⟨?_, ?_, rfl, rfl⟩
  · simp [matchesNotEqual, h]
  · rcases hg : getField r col with _ | sv
    · simp [matchesNotContains, hg]
    · cases sv
      case null => simp [matchesNotContains, hg, svElems]
      all_goals simp [presentField, hg] at h

/-- C3 amended witness: the row storing an explicit null `user` field
has no present value there, and the amended statement holds for it. -/
theorem negativeOperators_match_absent_witness :
    presentField [("user", StoredValue.null)] "user" = none ∧
    (matchesNotEqual [("user", StoredValue.null)] "user" (.str "us_x") = true ∧
     matchesNotContains [("user", StoredValue.null)] "user" ["us_x"] = true ∧
     search .postgres userTable
         { query := { notEqual := [("user", .str "us_aaa")] } } =
       .ok [[("user", OutVal.ref "us_bbb")], [("user", OutVal.null)]] ∧
     search .postgres multiUserTable
         { query := { notContains := [("users", ["us_aaa"])] } } =
       .ok [[("number", OutVal.num 2), ("users", OutVal.refList ["us_bbb"])],
            [("number", OutVal.num 4), ("users", OutVal.refList [])]]) :=
  ⟨rfl, negativeOperators_match_absent [("user", StoredValue.null)] "user"
    (.str "us_x") ["us_x"] rfl⟩

/-- C4: an `empty`/`notEmpty` predicate always counts as a real
predicate, so a query containing one is never planned as the
empty-filter short-circuit regardless of the `onEmptyFilter` policy;
concretely, on the string table `empty: \x7bname\x7d` with
`RETURN_ALL` still returns no rows (no name is empty) and
`notEmpty: \x7bname\x7d` with `RETURN_NONE` still returns both
non-empty rows, on every adapter family. -/
theorem emptyNotEmpty_real_predicate (fam : AdapterFamily)
    (q : SearchFilters) (h : q.empty ≠ [] ∨ q.notEmpty ≠ []) :
    planSearch fam q ≠ .shortCircuitNone ∧
    search fam stringTable
        { query := { empty := ["name"],
                     onEmptyFilter := some .returnAll } } = .ok [] ∧
    search fam stringTable
        { query := { notEmpty := ["name"],
                     onEmptyFilter := some .returnNone } } =
      .ok [[("name", OutVal.str "foo")], [("name", OutVal.str "bar")]] := by
  have hef : q.isEmptyFilter = false := by
    cases hq : q.isEmptyFilter
    · rfl
    · exfalso
      obtain ⟨_, _, _, _, _, _, _, _, h9, h10⟩ := isEmptyFilter_components hq
      rcases h with h | h
      · exact h h9
      · exact h h10
  refine ⟨?_, by cases fam <;> rfl, by cases fam <;> rfl⟩
  cases hu : unsupportedHalfOpen fam q
  · simp [planSearch, hu, hef]
  · simp [planSearch, hu]

/-- C4 witness: a query whose only predicate is `notEmpty` on `name`
is not short-circuited, and the concrete policy-resistant searches
behave as stated. -/
theorem emptyNotEmpty_real_predicate_witness :
    planSearch .mysql { notEmpty := ["name"] } ≠ .shortCircuitNone ∧
    search .mysql stringTable
        { query := { empty := ["name"],
                     onEmptyFilter := some .returnAll } } = .ok [] ∧
    search .mysql stringTable
        { query := { notEmpty := ["name"],
                     onEmptyFilter := some .returnNone } } =
      .ok [[("name", OutVal.str "foo")], [("name", OutVal.str "bar")]] :=
  emptyNotEmpty_real_predicate .mysql { notEmpty := ["name"] }
    (Or.inr (by decide))

/-- An in-bounds default lookup is a member of the list. -/
theorem getD_mem_of_lt {l : List Row} {i : Nat} (h : i < l.length) :
    l.getD i [] ∈ l := by
  have he : l.getD i [] = l[i] := by
    simp [List.getD_eq_getElem?_getD, List.getElem?_eq_getElem h]
  rw [he]
  exact List.getElem_mem h

/-- Sorted index sequences only mention positions of the table. -/
theorem mem_sortedIndices {K : Type} [LinearOrder K] {k : Nat → K}
    {ord : SortOrder} {n i : Nat} (h : i ∈ sortedIndices k ord n) :
    i < n := by
  cases ord <;>
    simpa [sortedIndices, List.mem_range] using h

/-- Sorting permutes rows of the input list: every output row occurs
in the input. -/
theorem mem_of_mem_sortByKey {K : Type} [LinearOrder K] {key : Row → K}
    {ord : SortOrder} {rs : List Row} {r : Row}
    (h : r ∈ sortByKey key ord rs) : r ∈ rs := by
  rcases List.mem_map.mp h with ⟨i, hi, hr⟩
  rw [← hr]
  exact getD_mem_of_lt (mem_sortedIndices hi)

/-- Every row produced by `applySort` occurs in its input. -/
theorem mem_of_mem_applySort {s : SortSpec} {rs : List Row} {r : Row}
    (h : r ∈ applySort s rs) : r ∈ rs := by
  cases hs : s.sortType <;>
    · rw [applySort, hs] at h
      exact mem_of_mem_sortByKey h

/-- Every row produced by `runQuery` is a row of the table. -/
theorem mem_of_mem_runQuery {tbl : List Row} {p : RowSearchParams}
    {r : Row} (h : r ∈ runQuery tbl p) : r ∈ tbl := by
  rw [runQuery] at h
  have h2 : r ∈
      (match p.sort with
       | none => tbl.filter (fun r => rowMatches p.query r)
       | some s => applySort s (tbl.filter (fun r => rowMatches p.query r))) := by
    rcases hl : p.limit with _ | l
    · simpa [hl] using h
    · rw [hl] at h
      exact List.mem_of_mem_take h
  have h3 : r ∈ tbl.filter (fun r => rowMatches p.query r) := by
    rcases hs : p.sort with _ | s
    · simpa [hs] using h2
    · rw [hs] at h2
      exact mem_of_mem_applySort h2
  exact List.mem_of_mem_filter h3

/-- C5: reference fields come back normalized.  Every row a successful
search returns is the engine's normalization of a stored table row,
and normalization turns a reference-array field (the multi-reference
representation as well as the deprecated single-wrapped-in-array one)
into the ordered sequence of its users' `_id` objects - in particular
a deprecated single reference stored as `[u]` comes back as an array
containing exactly one `_id` object.  The caller never performs this
reshaping. -/
theorem reference_fields_normalized (fam : AdapterFamily) (tbl : List Row)
    (p : RowSearchParams) (out : List OutRow)
    (h : search fam tbl p = .ok out) :
    (∀ r ∈ out, ∃ r0 ∈ tbl, r = normalizeRow r0) ∧
    (∀ (r0 : Row) (col : String) (us : List UserObj),
      (col, StoredValue.userArr us) ∈ r0 →
      (col, OutVal.refList (us.map UserObj.uid)) ∈ normalizeRow r0) ∧
    (∀ (r0 : Row) (col : String) (u : UserObj),
      (col, StoredValue.userArr [u]) ∈ r0 →
      (col, OutVal.refList [u.uid]) ∈ normalizeRow r0) := by
  refine ⟨?_, ?_, ?_⟩
  · intro r hr
    rw [search] at h
    rcases hp : planSearch fam p.query with e | _ | _ <;> rw [hp] at h
    · exact absurd h (by simp)
    · have : out = [] := by simpa using h.symm
      rw [this] at hr
      exact absurd hr (by simp)
    · have hout : (runQuery tbl p).map normalizeRow = out := by
        simpa using h
      rw [← hout] at hr
      rcases List.mem_map.mp hr with ⟨r0, hr0, hnorm⟩
      exact ⟨r0, mem_of_mem_runQuery hr0, hnorm.symm⟩
  · intro r0 col us hmem
    have : ((col, StoredValue.userArr us).1,
        normalizeValue (col, StoredValue.userArr us).2) ∈ normalizeRow r0 :=
      List.mem_map_of_mem _ hmem
    simpa [normalizeValue] using this
  · intro r0 col u hmem
    have : ((col, StoredValue.userArr [u]).1,
        normalizeValue (col, StoredValue.userArr [u]).2) ∈ normalizeRow r0 :=
      List.mem_map_of_mem _ hmem
    simpa [normalizeValue] using this

/-- A table holding one row whose reference field uses the deprecated
single-wrapped-in-array representation. -/
def depSingleTable : List Row :=
  [[("name", .str "dep"),
    ("deprecated_single_user", .userArr [userOne])]]

/-- C5 witness: searching the deprecated-single table succeeds, and the
deprecated single reference stored as `[userOne]` is returned as an
array containing exactly the one `_id` object. -/
theorem reference_fields_normalized_witness :
    ("deprecated_single_user", OutVal.refList ["us_aaa"]) ∈
      normalizeRow [("name", StoredValue.str "dep"),
                    ("deprecated_single_user", StoredValue.userArr [userOne])] :=
  (reference_fields_normalized .mysql depSingleTable
      { query := { equal := [("deprecated_single_user", .str "us_aaa")] } }
      [[("name", OutVal.str "dep"),
        ("deprecated_single_user", OutVal.refList ["us_aaa"])]] rfl).2.2
    [("name", StoredValue.str "dep"),
     ("deprecated_single_user", StoredValue.userArr [userOne])]
    "deprecated_single_user" userOne (by simp)

/-- C6: bigint comparison is exact integer comparison up to the signed
64-bit boundary.  On every adapter family an `equal` filter with the
string value `9223372036854775807` matches exactly the row storing
that value; on every family that supports single-bound ranges, a
high-only bound at the boundary finds it (together with the smaller
rows), a low-only bound at the boundary finds exactly it, and a
low-only bound below it (`10000000`) finds it as well - all through
exact string-parsed integers, never floating point. -/
theorem bigint_exact_at_boundary (fam : AdapterFamily) :
    search fam bigintTable
        { query := { equal := [("num", .str "9223372036854775807")] } } =
      .ok [[("num", OutVal.bigint 9223372036854775807)]] ∧
    (supportsHalfOpenRange fam = true →
      search fam bigintTable
          { query := { range :=
              [("num", { high := some (.str "9223372036854775807") })] } } =
        .ok [[("num", OutVal.bigint 1)],
             [("num", OutVal.bigint 10000000)],
             [("num", OutVal.bigint 9223372036854775807)]] ∧
      search fam bigintTable
          { query := { range :=
              [("num", { low := some (.str "9223372036854775807") })] } } =
        .ok [[("num", OutVal.bigint 9223372036854775807)]] ∧
      search fam bigintTable
          { query := { range :=
              [("num", { low := some (.str "10000000") })] } } =
        .ok [[("num", OutVal.bigint 10000000)],
             [("num", OutVal.bigint 9223372036854775807)]]) := by
  cases fam
  case indexed => exact ⟨rfl, fun h => absurd h (by decide)⟩
  all_goals exact ⟨rfl, fun _ => ⟨rfl, rfl, rfl⟩⟩

/-- C6 witness: the postgres family supports single-bound ranges, and
there the boundary value is found exactly. -/
theorem bigint_exact_at_boundary_witness :
    supportsHalfOpenRange .postgres = true ∧
    (search .postgres bigintTable
        { query := { range :=
            [("num", { high := some (.str "9223372036854775807") })] } } =
      .ok [[("num", OutVal.bigint 1)],
           [("num", OutVal.bigint 10000000)],
           [("num", OutVal.bigint 9223372036854775807)]] ∧
     search .postgres bigintTable
        { query := { range :=
            [("num", { low := some (.str "9223372036854775807") })] } } =
      .ok [[("num", OutVal.bigint 9223372036854775807)]] ∧
     search .postgres bigintTable
        { query := { range :=
            [("num", { low := some (.str "10000000") })] } } =
      .ok [[("num", OutVal.bigint 10000000)],
           [("num", OutVal.bigint 9223372036854775807)]]) :=
  ⟨rfl, (bigint_exact_at_boundary .postgres).2 rfl⟩

/-- The session user of the bindings fixtures. -/
def sessionUser : UserObj := { uid := "us_session", firstName := "Sess" }

/-- A global user of the bindings fixtures. -/
def globalUserZero : UserObj := { uid := "us_g0", firstName := "G" }

/-- The binding context of the bindings fixtures: the session user's
`_id` and `firstName` resolve to values, `empty_path` resolves to an
explicit empty string, and any other path (such as `_idx`) resolves to
nothing. -/
def sessionCtx : BindingContext :=
  ⟨[("_id", "us_session"), ("firstName", "Sess"), ("empty_path", "")]⟩

/-- The single-user binding table: one row referencing the session
user, one referencing the global user. -/
def singleUserTable : List Row :=
  [[("name", .str "single user, session user"),
    ("single_user", .userObj sessionUser)],
   [("name", .str "single user"),
    ("single_user", .userObj globalUserZero)]]

/-- The unresolved query
`oneOf: \x7bsingle_user: [default [user]._id _empty_, us_g0]\x7d`. -/
def oneOfDefaultId : UnresolvedFilters :=
  { oneOf := [("single_user",
      [.binding (.defaultHelper "_id" "_empty_"), .val (.str "us_g0")])] }

/-- The same query with the non-existent path `[user]._idx`. -/
def oneOfDefaultIdx : UnresolvedFilters :=
  { oneOf := [("single_user",
      [.binding (.defaultHelper "_idx" "_empty_"), .val (.str "us_g0")])] }

/-- C7: the `default` helper substitutes its literal fallback exactly
when the referenced path resolves to nothing, and never when the path
resolves to a value - including an explicit empty string.  The
resolved literal is what reaches the adapter: the query
`oneOf: [default [user]._id _empty_, us_g0]` matches the session
user's row and the global user's row on every adapter family, while
the same query over the non-existent path `[user]._idx` matches only
the global user's row. -/
theorem defaultHelper_resolution :
    (∀ (ctx : BindingContext) (p fb : String),
      resolveUserPath ctx p = none →
      resolveBinding ctx (.defaultHelper p fb) = .ok fb) ∧
    (∀ (ctx : BindingContext) (p fb v : String),
      resolveUserPath ctx p = some v →
      resolveBinding ctx (.defaultHelper p fb) = .ok v) ∧
    resolveBinding sessionCtx (.defaultHelper "empty_path" "_empty_") =
      .ok "" ∧
    (∀ fam : AdapterFamily,
      searchWithBindings fam sessionCtx singleUserTable oneOfDefaultId =
        .ok [[("name", OutVal.str "single user, session user"),
              ("single_user", OutVal.ref "us_session")],
             [("name", OutVal.str "single user"),
              ("single_user", OutVal.ref "us_g0")]] ∧
      searchWithBindings fam sessionCtx singleUserTable oneOfDefaultIdx =
        .ok [[("name", OutVal.str "single user"),
              ("single_user", OutVal.ref "us_g0")]]) := by
  refine ⟨?_, ?_, rfl, ?_⟩
  · intro ctx p fb h
    simp [resolveBinding, h]
  · intro ctx p fb v h
    simp [resolveBinding, h]
  · intro fam
    cases fam <;> exact ⟨rfl, rfl⟩

/-- C7 witness: in the fixture context, `_idx` resolves to nothing so
`default` substitutes its fallback, while `empty_path` resolves to an
explicit empty string so it does not. -/
theorem defaultHelper_resolution_witness :
    resolveUserPath sessionCtx "_idx" = none ∧
    resolveBinding sessionCtx (.defaultHelper "_idx" "_empty_") =
      .ok "_empty_" ∧
    resolveUserPath sessionCtx "empty_path" = some "" ∧
    resolveBinding sessionCtx (.defaultHelper "empty_path" "_x_") = .ok "" :=
  ⟨rfl, defaultHelper_resolution.1 sessionCtx "_idx" "_empty_" rfl,
   rfl, defaultHelper_resolution.2.1 sessionCtx "empty_path" "_x_" "" rfl⟩

/-- C8: for `contains`, `notContains` and `containsAny`, an empty value
list is the documented identity: on every adapter family and every
table - so for array fields and multi-reference fields alike - the
query returns every row of the table. -/
theorem containsFamily_empty_list_identity (fam : AdapterFamily)
    (tbl : List Row) (col : String) :
    search fam tbl { query := { contains := [(col, [])] } } =
      .ok (tbl.map normalizeRow) ∧
    search fam tbl { query := { notContains := [(col, [])] } } =
      .ok (tbl.map normalizeRow) ∧
    search fam tbl { query := { containsAny := [(col, [])] } } =
      .ok (tbl.map normalizeRow) := by
  have hplan : ∀ q : SearchFilters, q.range = [] →
      q.isEmptyFilter = false → planSearch fam q = .dispatch := by
    intro q h1 h2
    simp [planSearch, unsupportedHalfOpen_of_range_nil h1, h2]
  refine ⟨?_, ?_, ?_⟩
  · have hp := hplan { contains := [(col, [])] } rfl rfl
    have hr : runQuery tbl
        { query := ({ contains := [(col, [])] } : SearchFilters) } = tbl :=
      runQuery_all (fun r _ => by simp [rowMatches, matchesContains])
    simp [search, hp, hr]
  · have hp := hplan { notContains := [(col, [])] } rfl rfl
    have hr : runQuery tbl
        { query := ({ notContains := [(col, [])] } : SearchFilters) } = tbl :=
      runQuery_all (fun r _ => by simp [rowMatches, matchesNotContains])
    simp [search, hp, hr]
  · have hp := hplan { containsAny := [(col, [])] } rfl rfl
    have hr : runQuery tbl
        { query := ({ containsAny := [(col, [])] } : SearchFilters) } = tbl :=
      runQuery_all (fun r _ => by simp [rowMatches, matchesContainsAny])
    simp [search, hp, hr]

/-- Descending index order is sorting by the exact flip of the
ascending order, and because the tie-break by original position makes
the order linear, the descending sequence is the exact reverse of the
ascending one. -/
theorem sortedIndices_descending {K : Type} [LinearOrder K] (k : Nat → K)
    (n : Nat) :
    sortedIndices k .descending n = (sortedIndices k .ascending n).reverse := by
  haveI : IsTotal Nat (idxLe k) := ⟨fun a b => idxLe_total k a b⟩
  haveI : IsTrans Nat (idxLe k) := ⟨fun _ _ _ h1 h2 => idxLe_trans k h1 h2⟩
  haveI : IsTotal Nat (idxGe k) := ⟨fun a b => idxLe_total k b a⟩
  haveI : IsTrans Nat (idxGe k) := ⟨fun _ _ _ h1 h2 => idxLe_trans k h2 h1⟩
  haveI : IsAntisymm Nat (idxGe k) :=
    ⟨fun _ _ h1 h2 => idxLe_antisymm k h2 h1⟩
  apply List.eq_of_perm_of_sorted (r := idxGe k)
  · exact (List.perm_insertionSort _ _).trans
      (((List.perm_insertionSort (idxLe k) (List.range n)).symm).trans
        (List.reverse_perm _).symm)
  · exact List.sorted_insertionSort (idxGe k) (List.range n)
  · have hs := List.sorted_insertionSort (idxLe k) (List.range n)
    exact List.pairwise_reverse.mpr (hs.imp (fun h => h))

/-- Sorting rows descending by a key yields the reverse of sorting
them ascending. -/
theorem sortByKey_descending {K : Type} [LinearOrder K] (key : Row → K)
    (rs : List Row) :
    sortByKey key .descending rs = (sortByKey key .ascending rs).reverse := by
  rw [sortByKey, sortByKey, sortedIndices_descending, List.map_reverse]

/-- Applying a descending sort yields the reverse of the ascending
sort, for both sort types. -/
theorem applySort_descending (col : String) (st : SortType) (rs : List Row) :
    applySort { column := col, sortType := st, order := .descending } rs =
      (applySort { column := col, sortType := st, order := .ascending } rs).reverse := by
  cases st <;> simp [applySort, sortByKey_descending]

/-- C9: for a fixed table, query, sort column and sort type, on every
adapter family, sorting descending returns exactly the reverse of the
row order produced by sorting the same data ascending; the model is a
pure function of its inputs, so ties are broken identically (by
original row position) on every run. -/
theorem sort_descending_is_reverse (fam : AdapterFamily) (tbl : List Row)
    (q : SearchFilters) (col : String) (st : SortType) :
    search fam tbl
        { query := q,
          sort := some { column := col, sortType := st, order := .descending } } =
      (search fam tbl
        { query := q,
          sort := some { column := col, sortType := st, order := .ascending } }).map
        List.reverse := by
  rw [search, search]
  rcases hp : planSearch fam q with e | _ | _ <;> simp only [hp]
  · rfl
  · rfl
  · rw [runQuery, runQuery]
    simp only [Except.map]
    rw [applySort_descending, List.map_reverse]

/-- C10: a `contains` filter listing several values is conjunctive - a
row matches only if its multi-valued field holds every listed value -
while `containsAny` is disjunctive - a row matches if its field holds
at least one listed value.  Concretely, over the array table rows
`["one","two"]` and `["three"]`, the query
`contains: \x7bnumbers: ["one","two","three"]\x7d` matches no row and
`containsAny` with the same list matches both rows, on every adapter
family. -/
theorem contains_conjunctive_containsAny_disjunctive :
    (∀ (r : Row) (col : String) (vs : List String), vs ≠ [] →
      (matchesContains r col vs = true ↔
        ∃ es, (getField r col).bind svElems = some es ∧
          ∀ v ∈ vs, es.contains v = true)) ∧
    (∀ (r : Row) (col : String) (vs : List String), vs ≠ [] →
      (matchesContainsAny r col vs = true ↔
        ∃ es, (getField r col).bind svElems = some es ∧
          ∃ v ∈ vs, es.contains v = true)) ∧
    (∀ fam : AdapterFamily,
      search fam arrayTable
          { query := { contains :=
              [("numbers", ["one", "two", "three"])] } } = .ok [] ∧
      search fam arrayTable
          { query := { containsAny :=
              [("numbers", ["one", "two", "three"])] } } =
        .ok [[("numbers", OutVal.arr ["one", "two"])],
             [("numbers", OutVal.arr ["three"])]] ∧
      search fam arrayTable
          { query := { contains := [("numbers", ["one"])] } } =
        .ok [[("numbers", OutVal.arr ["one", "two"])]]) := by
  refine ⟨?_, ?_, ?_⟩
  · intro r col vs hvs
    rw [matchesContains, if_neg (by simp [List.isEmpty_iff, hvs])]
    rcases hb : (getField r col).bind svElems with _ | es
    · simp
    · simp [List.all_eq_true]
  · intro r col vs hvs
    rw [matchesContainsAny, if_neg (by simp [List.isEmpty_iff, hvs])]
    rcases hb : (getField r col).bind svElems with _ | es
    · simp
    · simp [List.any_eq_true]
  · intro fam
    cases fam <;> exact ⟨rfl, rfl, rfl⟩

/-- C10 witness: the row `["one","two"]` satisfies the conjunctive
characterization for the single-value list `["one"]`. -/
theorem contains_conjunctive_containsAny_disjunctive_witness :
    matchesContains [("numbers", StoredValue.arr ["one", "two"])]
      "numbers" ["one"] = true :=
  (contains_conjunctive_containsAny_disjunctive.1
      [("numbers", StoredValue.arr ["one", "two"])] "numbers" ["one"]
      (by decide)).mpr
    ⟨["one", "two"], rfl, by decide⟩
